import Mathlib

/-!
Verification of the haste-map clone (jest-haste-map style incremental indexer).

The TypeScript sources are shallowly embedded: JavaScript `Map` objects
(string-keyed, with `get` / `set` / `delete` / `size`) become association
lists over `String`, the tuple-shaped `FileMetaData` and `ModuleMetaData`
values become structures / products whose fields correspond to the numeric
indices of the `H` constants table (src/unnamed/part_003), and the
asynchronous I/O boundaries (the watchman client, `fs`, `JSON.parse`,
plugin loading) are passed in as data, so every definition is executable.
Paths are modelled for the POSIX host convention (`path.sep = "/"`), which
matches the `normalizePathSep` source: on POSIX it is the identity.
-/

/-- A string-keyed association list modelling a JavaScript `Map` (or a plain
object used as a dictionary).  The JS operations preserve key uniqueness;
`set` overwrites in place and `del` removes every binding of the key, which
agree with JS `Map.set` / `Map.delete` on unique-key lists. -/
def SMap (α : Type) : Type := List (String × α)

instance (α : Type) [DecidableEq α] : DecidableEq (SMap α) :=
  inferInstanceAs (DecidableEq (List (String × α)))

def SMap.empty (α : Type) : SMap α := []

/-- JS `Map.prototype.get` (first binding of the key). -/
def SMap.get {α : Type} (m : SMap α) (k : String) : Option α :=
  match m with
  | [] => none
  | (k', v) :: rest => if k' = k then some v else SMap.get rest k

/-- JS `Map.prototype.set` (overwrite the first binding, else append). -/
def SMap.set {α : Type} (m : SMap α) (k : String) (v : α) : SMap α :=
  match m with
  | [] => [(k, v)]
  | (k', v') :: rest => if k' = k then (k, v) :: rest else (k', v') :: SMap.set rest k v

/-- JS `Map.prototype.delete` (drops the key's bindings). -/
def SMap.del {α : Type} (m : SMap α) (k : String) : SMap α :=
  match m with
  | [] => []
  | (k', v') :: rest => if k' = k then SMap.del rest k else (k', v') :: SMap.del rest k

/-- JS `Map.prototype.size` (under the unique-key invariant maintained by
`set` and `del`, the length is the number of keys). -/
def SMap.size {α : Type} (m : SMap α) : Nat := m.length

theorem SMap.get_set_self {α : Type} (m : SMap α) (k : String) (v : α) :
    (m.set k v).get k = some v := by
  induction m with
  | nil => simp [SMap.set, SMap.get]
  | cons hd tl ih =>
    by_cases h : hd.1 = k
    · simp [SMap.set, SMap.get, h]
    · simp only [SMap.set, SMap.get, h, if_false]
      exact ih

theorem SMap.get_del {α : Type} (m : SMap α) (k k' : String) :
    (m.del k).get k' = if k' = k then none else m.get k' := by
  induction m with
  | nil => simp [SMap.del, SMap.get]
  | cons hd tl ih =>
    by_cases hk : hd.1 = k
    · by_cases hk' : k' = k
      · subst hk'
        simpa [SMap.del, SMap.get, hk] using ih
      · have hne : ¬(k = k') := fun hc => hk' hc.symm
        simp [SMap.del, SMap.get, hk, hk', hne, ih]
    · by_cases hk' : hd.1 = k'
      · have hke : ¬(k' = k) := fun hc => hk (hk'.trans hc)
        simp [SMap.del, SMap.get, hk, hk', hke]
      · simp [SMap.del, SMap.get, hk, hk', ih]

theorem SMap.get_del_self {α : Type} (m : SMap α) (k : String) :
    (m.del k).get k = none := by
  simp [SMap.get_del]

theorem SMap.get_del_ne {α : Type} (m : SMap α) (k k' : String) (h : k' ≠ k) :
    (m.del k).get k' = m.get k' := by
  simp [SMap.get_del, h]

/-!
Constants table `H` (src/unnamed/part_003).  The numeric file-tuple and
module-tuple indices become structure fields below; the remaining constants
are kept verbatim.
-/

namespace H

def GENERIC_PLATFORM : String := "g"

def NATIVE_PLATFORM : String := "native"

/-- Module type tag `H.MODULE = 0`. -/
def MODULE : Nat := 0

/-- Module type tag `H.PACKAGE = 1`. -/
def PACKAGE : Nat := 1

def DEPENDENCY_DELIM : String := "\x00"

end H

/-- `FileMetaData` tuple (src/src/types.ts): the fields are, in order, the
slots `H.ID = 0`, `H.MTIME = 1`, `H.SIZE = 2`, `H.VISITED = 3`,
`H.DEPENDENCIES = 4`, `H.SHA1 = 5`.  `visited` is the `0 | 1` flag the
source stores; `sha1` collapses the source's `null | undefined` to `none`. -/
structure FileMetaData where
  id : String
  mtime : Int
  size : Int
  visited : Nat
  dependencies : String
  sha1 : Option String
deriving DecidableEq

/-- `ModuleMetaData` tuple `[path, type]` (slots `H.PATH = 0`, `H.TYPE = 1`). -/
abbrev ModuleMetaData : Type := String × Nat

/-- `ModuleMapItem`: platform tag to `ModuleMetaData` (a plain JS object). -/
abbrev ModuleMapItem : Type := SMap ModuleMetaData

/-- `ModuleMapData`: haste id to `ModuleMapItem`. -/
abbrev ModuleMapData : Type := SMap ModuleMapItem

/-- `DuplicatesSet`: relative path to module type. -/
abbrev DuplicatesSet : Type := SMap Nat

/-- `DuplicatesIndex`: haste id to platform tag to `DuplicatesSet`. -/
abbrev DuplicatesIndex : Type := SMap (SMap DuplicatesSet)

/-- `FileData`: relative path to `FileMetaData`. -/
abbrev FileData : Type := SMap FileMetaData

/-- `MockData`: mock name to relative path. -/
abbrev MockData : Type := SMap String

/-- `WatchmanClockSpec` (src/src/types.ts): a string local clock or an SCM
query object; the SCM object's `mergebase-with` field is optional because
the crawler tests it against `undefined`. -/
inductive ClockSpec where
  | str (clock : String)
  | scm (mergebaseWith : Option String)
deriving DecidableEq

abbrev WatchmanClocks : Type := SMap ClockSpec

/-- `InternalHasteMap` (src/src/types.ts). -/
structure InternalHasteMap where
  clocks : WatchmanClocks
  duplicates : DuplicatesIndex
  files : FileData
  map : ModuleMapData
  mocks : MockData
deriving DecidableEq

/-- `_createEmptyMap` (src/src/index.ts). -/
def createEmptyMap : InternalHasteMap :=
  { clocks := [], duplicates := [], files := [], map := [], mocks := [] }

/-- Embedding of `_recoverDuplicates` (src/src/index.ts, lines 393-443).
The source copies `dupsByPlatform` and `dups` (copy-on-write), stores the
copies back into `duplicates`, deletes the removed path from the copy, and
stops unless exactly one contender remains; if one does, it is promoted
into `map[moduleName][g]`, the generic platform is dropped from the
per-platform map and, if nothing else remains there, the module name is
dropped from `duplicates`.  Mutation of the copied objects after they were
stored back is rendered by re-`set`ting the updated values. -/
def recoverDuplicates (hasteMap : InternalHasteMap) (relativeFilePath : String)
    (moduleName : String) : InternalHasteMap :=
  match hasteMap.duplicates.get moduleName with
  | none => hasteMap
  | some dupsByPlatform0 =>
    let platform := H.GENERIC_PLATFORM
    match dupsByPlatform0.get platform with
    | none => hasteMap
    | some dups0 =>
      let dups := dups0.del relativeFilePath
      let dupsByPlatform := dupsByPlatform0.set platform dups
      let hm1 : InternalHasteMap :=
        { hasteMap with duplicates := hasteMap.duplicates.set moduleName dupsByPlatform }
      if dups.size ≠ 1 then hm1
      else
        match dups with
        | [] => hm1
        | (lastPath, lastKind) :: _ =>
          let dedupMap := (hm1.map.get moduleName).getD []
          let dedupMap' := dedupMap.set platform (lastPath, lastKind)
          let dupsByPlatform2 := dupsByPlatform.del platform
          { hm1 with
            map := hm1.map.set moduleName dedupMap'
            duplicates :=
              if dupsByPlatform2.size = 0 then hm1.duplicates.del moduleName
              else hm1.duplicates.set moduleName dupsByPlatform2 }

/-- C2: from a state where `duplicates[id][g]` holds exactly the entries for
files A and B — stored in either order, so the removed file may be either
the first- or the second-inserted contender — and `map[id]` is unset,
`_recoverDuplicates` for the removal of A promotes B: `map[id][g]` becomes
B's entry and `id` is removed from `duplicates` entirely. -/
theorem recoverDuplicates_promotes_survivor
    (hm : InternalHasteMap) (id A B : String) (kA kB : Nat)
    (dups0 : DuplicatesSet)
    (hdup : hm.duplicates.get id = some [(H.GENERIC_PLATFORM, dups0)])
    (hd : dups0 = [(A, kA), (B, kB)] ∨ dups0 = [(B, kB), (A, kA)])
    (hne : A ≠ B)
    (hmap : hm.map.get id = none) :
    ((recoverDuplicates hm A id).map.get id = some [(H.GENERIC_PLATFORM, (B, kB))]) ∧
    ((recoverDuplicates hm A id).duplicates.get id = none) := by
  have hBA : ¬(B = A) := fun hc => hne hc.symm
  rcases hd with hd | hd <;>
  · subst hd
    unfold recoverDuplicates
    rw [hdup]
    simp [SMap.get, SMap.del, SMap.set, SMap.size, H.GENERIC_PLATFORM, hBA, hmap,
      SMap.get_set_self, SMap.get_del_self]

/-- Concrete state for the C2 witness: `duplicates = Foo -> g -> a.js, c.js`,
empty `map`. -/
def recoverW : InternalHasteMap :=
  { createEmptyMap with
    duplicates := [("Foo", [(H.GENERIC_PLATFORM, [("a.js", 0), ("c.js", 0)])])] }

theorem recoverDuplicates_promotes_survivor_witness :
    (((recoverDuplicates recoverW "a.js" "Foo").map.get "Foo"
        = some [(H.GENERIC_PLATFORM, ("c.js", 0))]) ∧
     ((recoverDuplicates recoverW "a.js" "Foo").duplicates.get "Foo" = none)) ∧
    (((recoverDuplicates recoverW "c.js" "Foo").map.get "Foo"
        = some [(H.GENERIC_PLATFORM, ("a.js", 0))]) ∧
     ((recoverDuplicates recoverW "c.js" "Foo").duplicates.get "Foo" = none)) :=
  ⟨recoverDuplicates_promotes_survivor recoverW "Foo" "a.js" "c.js" 0 0
      [("a.js", 0), ("c.js", 0)] (by decide) (Or.inl rfl) (by decide) (by decide),
   recoverDuplicates_promotes_survivor recoverW "Foo" "c.js" "a.js" 0 0
      [("a.js", 0), ("c.js", 0)] (by decide) (Or.inr rfl) (by decide) (by decide)⟩

/-- Per-platform duplicates map for the C10 witness. -/
def dbpW : SMap DuplicatesSet := [(H.GENERIC_PLATFORM, [("x.js", 0)])]

/-- C10: when `duplicates[moduleName][g]` holds only the removed path,
`_recoverDuplicates` deletes it and returns early: the module name stays in
`duplicates`, now mapping the generic platform to an empty contender map,
and `map` is untouched (no promotion). -/
theorem recoverDuplicates_single_contender
    (hm : InternalHasteMap) (id p : String) (k : Nat) (dbp : SMap DuplicatesSet)
    (hdup : hm.duplicates.get id = some dbp)
    (hg : dbp.get H.GENERIC_PLATFORM = some [(p, k)]) :
    ((recoverDuplicates hm p id).duplicates.get id
        = some (dbp.set H.GENERIC_PLATFORM [])) ∧
    ((dbp.set H.GENERIC_PLATFORM []).get H.GENERIC_PLATFORM = some []) ∧
    ((recoverDuplicates hm p id).map = hm.map) := by
  unfold recoverDuplicates
  rw [hdup]
  simp [hg, SMap.del, SMap.size, SMap.get_set_self]

/-- Concrete state for the C10 witness: `duplicates = Bar -> g -> x.js` only. -/
def recoverSingleW : InternalHasteMap :=
  { createEmptyMap with duplicates := [("Bar", dbpW)] }

theorem recoverDuplicates_single_contender_witness :
    ((recoverDuplicates recoverSingleW "x.js" "Bar").duplicates.get "Bar"
        = some (dbpW.set H.GENERIC_PLATFORM [])) ∧
    ((dbpW.set H.GENERIC_PLATFORM []).get H.GENERIC_PLATFORM = some []) ∧
    ((recoverDuplicates recoverSingleW "x.js" "Bar").map = recoverSingleW.map) :=
  recoverDuplicates_single_contender recoverSingleW "Bar" "x.js" 0 dbpW
    (by decide) (by decide)

/-- Embedding of the `setModule` closure inside `_processFile`
(src/src/index.ts, lines 251-287).  It closes over the selected module map
and over `hasteMap.duplicates`; both are threaded explicitly.  The source:
creates `map[id]` as an empty object when missing; on a genuine collision
(an existing generic-platform entry whose path differs) it warns, deletes
the generic entry, deletes `id` from `map` when the remaining platform map
has exactly ONE key (`Object.keys(moduleMap).length === 1`), looks up (or
freshly creates) `duplicates[id]` — and then falls off the end of the `if`
without inserting either contender and without writing `dupsByPlatform`
back.  Outside the collision branch nothing is assigned. -/
def setModule (duplicates : DuplicatesIndex) (map : ModuleMapData)
    (id : String) (module : ModuleMetaData) : DuplicatesIndex × ModuleMapData :=
  let moduleMap := (map.get id).getD []
  let map1 := match map.get id with
    | some _ => map
    | none => map.set id []
  let platform := H.GENERIC_PLATFORM
  match moduleMap.get platform with
  | some existingModule =>
    if existingModule.1 ≠ module.1 then
      let moduleMap' := moduleMap.del platform
      let map2 := map1.set id moduleMap'
      let map3 := if moduleMap'.size = 1 then map2.del id else map2
      let _dupsByPlatform := (duplicates.get id).getD []
      (duplicates, map3)
    else (duplicates, map1)
  | none => (duplicates, map1)

/-- C1 evaluated at a genuine collision: `map = X -> g -> a.js`, empty
`duplicates`, and a colliding entry `c.js` for id `X`.  The code deletes
the generic entry but — because it tests `Object.keys(moduleMap).length
=== 1` instead of `=== 0` — leaves `X` in `map` bound to an EMPTY platform
map, and it never records either contender in `duplicates` (the collision
branch ends right after creating the empty `dupsByPlatform`).  The claim
requires `X` to be dropped from `map` and both `a.js` and `c.js` to appear
in `duplicates[X][g]`. -/
theorem setModule_collision_loses_duplicates :
    setModule [] [("X", [(H.GENERIC_PLATFORM, ("a.js", H.MODULE))])] "X"
        ("c.js", H.MODULE)
      = ([], [("X", [])]) := by
  rfl

/-- Embedding of the `workerEror` callback inside `_processFile`
(src/src/index.ts, lines 321-335).  An error whose `code` is outside the
literal list `["ENONET", "EACCES"]` is re-thrown (`Except.error`); one in
the list is swallowed and the file is deleted from `hasteMap.files`. -/
def workerEror (errorCode : Option String) (files : FileData)
    (relativeFilePath : String) : Except (Option String) FileData :=
  if ¬(errorCode = some "ENONET" ∨ errorCode = some "EACCES") then
    Except.error errorCode
  else
    Except.ok (files.del relativeFilePath)

/-- File metadata used by the C6 failing input. -/
def metaW : FileMetaData :=
  { id := "", mtime := 1, size := 1, visited := 0, dependencies := "", sha1 := none }

/-- C6 evaluated at the failing input: a worker error with code `ENOENT`
for `a.js`.  The recoverable-code list in the source is misspelled
(`"ENONET"`), so the `ENOENT` failure propagates instead of silently
dropping the file; meanwhile the nonsensical code `ENONET` is the one that
is swallowed.  (`EACCES` behaves as the claim says.) -/
theorem workerEror_enoent_propagates :
    workerEror (some "ENOENT") [("a.js", metaW)] "a.js"
        = Except.error (some "ENOENT") ∧
    workerEror (some "ENONET") [("a.js", metaW)] "a.js" = Except.ok [] ∧
    workerEror (some "EACCES") [("a.js", metaW)] "a.js" = Except.ok [] := by
  refine ⟨?_, ?_, ?_⟩ <;> rfl

/-- The async closure `build()` assigns to `this._buildPromise`
(src/src/index.ts, lines 153-171).  The source stores it and never invokes
it, so its body is opaque to every caller; it is rendered as a marker. -/
inductive BuildThunk where
  | closure
deriving DecidableEq

/-- The `HasteMap` instance state that `build()` touches. -/
structure HasteMapInstance where
  buildPromise : Option BuildThunk
deriving DecidableEq

/-- Embedding of `build()` (src/src/index.ts, lines 153-171): when
`_buildPromise` is unset it is assigned the async closure (which is NOT
invoked); the method body has no `return` statement, so every call
evaluates to `undefined` — rendered as the `none` second component. -/
def build (s : HasteMapInstance) : HasteMapInstance × Option InternalHasteMap :=
  match s.buildPromise with
  | none => ({ buildPromise := some BuildThunk.closure }, none)
  | some _ => (s, none)

/-- C8 evaluated on a fresh instance: the first `build()` stores the
closure without invoking it and returns `undefined`; the second `build()`
leaves the state unchanged and also returns `undefined`.  No call ever
returns (a promise of) a `HasteIndex`, so the builds are never run and the
claim's memoized result promise does not exist. -/
theorem build_never_returns_index :
    (build { buildPromise := none }).2 = none ∧
    (build { buildPromise := none }).1.buildPromise = some BuildThunk.closure ∧
    (build (build { buildPromise := none }).1).2 = none ∧
    (build (build { buildPromise := none }).1).1 = (build { buildPromise := none }).1 := by
  refine ⟨rfl, rfl, rfl, rfl⟩

/-- The locals `_buildHasteMap` (src/src/index.ts, lines 173-208) sets up:
the selected `map` / `mocks`, the file set chosen for processing, and the
haste map after the `_recoverDuplicates` pass over the removed files. -/
structure BuildHasteMapState where
  map : ModuleMapData
  mocks : MockData
  filesToProcess : FileData
  hasteMap : InternalHasteMap
deriving DecidableEq

/-- Embedding of `_buildHasteMap` (src/src/index.ts, lines 173-208): when
`changedFiles` is `undefined` or some file was removed, `map` and `mocks`
restart empty and every entry of `hasteMap.files` is selected; otherwise
the prior `map` / `mocks` are retained and only the changed files are
selected.  Then `_recoverDuplicates` runs for every removed file.  (The
processing loop that follows in the source only skips `package.json`
paths and computes an unused absolute path, so it has no effect on this
state.) -/
def buildHasteMap (removedFiles : FileData) (changedFiles : Option FileData)
    (hasteMap : InternalHasteMap) : BuildHasteMapState :=
  let sel : ModuleMapData × MockData × FileData :=
    if changedFiles.isNone ∨ removedFiles.size > 0 then ([], [], hasteMap.files)
    else (hasteMap.map, hasteMap.mocks, changedFiles.getD [])
  let hm := removedFiles.foldl
    (fun acc pf => recoverDuplicates acc pf.1 pf.2.id) hasteMap
  { map := sel.1, mocks := sel.2.1, filesToProcess := sel.2.2, hasteMap := hm }

/-- C3: reconciliation-input selection.  If the changed set is absent or
some file was removed, the reconciler restarts from empty `map` and
`mocks` and selects every tracked file; otherwise it retains the prior
`map` and `mocks` and selects exactly the changed files. -/
theorem buildHasteMap_selection (removedFiles : FileData)
    (changedFiles : Option FileData) (hm : InternalHasteMap) :
    ((changedFiles = none ∨ removedFiles ≠ []) →
      ((buildHasteMap removedFiles changedFiles hm).map = [] ∧
       (buildHasteMap removedFiles changedFiles hm).mocks = [] ∧
       (buildHasteMap removedFiles changedFiles hm).filesToProcess = hm.files)) ∧
    (∀ ch : FileData, changedFiles = some ch → removedFiles = [] →
      ((buildHasteMap removedFiles changedFiles hm).map = hm.map ∧
       (buildHasteMap removedFiles changedFiles hm).mocks = hm.mocks ∧
       (buildHasteMap removedFiles changedFiles hm).filesToProcess = ch)) := by
  constructor
  · intro h
    rcases h with h | h
    · subst h
      simp [buildHasteMap, SMap.size]
    · cases removedFiles with
      | nil => exact absurd rfl h
      | cons a l => simp [buildHasteMap, SMap.size]
  · intro ch hch hrem
    subst hch
    subst hrem
    simp [buildHasteMap, SMap.size]

/-- Concrete changed-file map for the C3 witness. -/
def changedW : FileData := [("b.js", metaW)]

/-- Concrete prior haste map for the C3 witness. -/
def priorHmW : InternalHasteMap :=
  { createEmptyMap with
    files := [("a.js", metaW), ("b.js", metaW)]
    map := [("Foo", [(H.GENERIC_PLATFORM, ("a.js", H.MODULE))])]
    mocks := [("m", "a.js")] }

theorem buildHasteMap_selection_witness :
    ((buildHasteMap [] none priorHmW).map = [] ∧
     (buildHasteMap [] none priorHmW).mocks = [] ∧
     (buildHasteMap [] none priorHmW).filesToProcess = priorHmW.files) ∧
    ((buildHasteMap [] (some changedW) priorHmW).map = priorHmW.map ∧
     (buildHasteMap [] (some changedW) priorHmW).mocks = priorHmW.mocks ∧
     (buildHasteMap [] (some changedW) priorHmW).filesToProcess = changedW) :=
  ⟨(buildHasteMap_selection [] none priorHmW).1 (Or.inl rfl),
   (buildHasteMap_selection [] (some changedW) priorHmW).2 changedW rfl rfl⟩

/-- POSIX `path.sep` (the host convention the embedding models). -/
def pathSep : String := "/"

/-- `normalizePathSep` (src/src/lib/normalizePathSep.ts): on a POSIX host
(`path.sep === "/"`) it is the identity. -/
def normalizePathSep (filePath : String) : String := filePath

/-- JS `String.prototype.endsWith`, computed on the character list (the
built-in `String.endsWith` does not reduce inside the kernel). -/
def strEndsWith (s sfx : String) : Bool := List.isSuffixOf sfx.data s.data

/-- JS `String.prototype.startsWith`, computed on the character list. -/
def strStartsWith (s p : String) : Bool := List.isPrefixOf p.data s.data

/-- Model of Node `path.relative(base, p)` for the POSIX cases this code
exercises: `""` when the paths are equal, the suffix after `base ++ "/"`
when `p` lies under `base`, and `p` unchanged otherwise (the full `..`
ladder is never needed: every theorem below holds for any value of this
last case). -/
def pathRelative (base p : String) : String :=
  if p = base then ""
  else if strStartsWith p (base ++ pathSep) then String.mk (p.data.drop (base.length + 1))
  else p

/-- The `PACKAGE_JSON` constant `path.sep + "package.json"`. -/
def PACKAGE_JSON : String := pathSep ++ "package.json"

/-- The suffix of `filePath` from its last `.` (inclusive). -/
def afterLastDot (cs : List Char) : Option (List Char) :=
  match cs with
  | [] => none
  | c :: rest =>
    match afterLastDot rest with
    | some r => some r
    | none => if c = '.' then some (c :: rest) else none

/-- JS `filePath.slice(filePath.lastIndexOf("."))`: the extension including
the dot; when there is no dot, `lastIndexOf` is `-1` and `slice(-1)` yields
the final character. -/
def extOf (filePath : String) : String :=
  match afterLastDot filePath.data with
  | some r => String.mk r
  | none => String.mk (filePath.data.drop (filePath.data.length - 1))

/-- The extension blacklist (src/unnamed/part_001 draft kept in
src/unnamed/part_000's sibling, exported as `blacklists`): JSON, image,
video, audio and font extensions; `.3gp` / `.3g2` are listed twice in the
source `Set` literal, which deduplicates them. -/
def blacklists : List String :=
  [".json",
   ".bmp", ".gif", ".ico", ".jpeg", ".jpg", ".png", ".svg", ".tiff", ".tif", ".webp",
   ".avi", ".mp4", ".mpeg", ".mpg", ".ogv", ".webm", ".3gp", ".3g2",
   ".aac", ".midi", ".mid", ".mp3", ".oga", ".wav", ".3gp", ".3g2",
   ".eot", ".otf", ".ttf", ".woff", ".woff2"]

/-- Outcome of `JSON.parse` on a package.json body, abstracted to what the
worker inspects: whether the parsed object carries a `name` field.
`JSON.parse` is a JS builtin, not repository code, so its outcome is an
input of the embedding. -/
inductive ParsedJson where
  | obj (name : Option String)
deriving DecidableEq

/-- `WorkerMetadata` (src/src/types.ts): the record the reconciler's
`workerReply` expects a worker to resolve with. -/
structure WorkerMetadata where
  dependencies : Option (List String)
  id : Option String
  module : Option ModuleMetaData
  sha1 : Option String
deriving DecidableEq

/-- Final state of one `worker(data)` call (src/unnamed/part_000, lines
19-83): the local variables it assigned, plus `returned`, the value the
async function resolves with.  The source function body ends without a
`return` statement, so `returned` is always `none` (undefined). -/
structure WorkerRun where
  id : Option String
  module : Option ModuleMetaData
  dependencies : Option (List String)
  sha1 : Option String
  returned : Option WorkerMetadata
deriving DecidableEq

/-- Embedding of `worker(data)` (src/unnamed/part_000, lines 19-83).
Library and plugin boundaries are inputs: `parse` is the outcome of
`JSON.parse(getContent())`, `hasteImplResult` is `hasteImpl.getHasteName`'s
answer when a haste plugin is loaded, and `extracted` is what the
dependency extractor yields.  A `package.json` file is parsed; a truthy
`name` (JS truthiness: the empty string does not count) yields
`id = name` and `module = [relativePath, H.PACKAGE]`; a parse failure is a
hard error naming the path.  Non-blacklisted other files get the plugin id
and, when requested, the extracted dependency list.  No branch executes a
`return`, so every successful run resolves with `undefined`. -/
def worker (rootDir filePath : String) (parse : Except String ParsedJson)
    (hasteImplResult : Option (Option String)) (computeDependencies : Bool)
    (extracted : List String) : Except String WorkerRun :=
  if strEndsWith filePath PACKAGE_JSON then
    match parse with
    | Except.error msg =>
      Except.error ("Cannot parse " ++ filePath ++ " as JSON: " ++ msg)
    | Except.ok (ParsedJson.obj jsName) =>
      match jsName with
      | some nm =>
        if nm ≠ "" then
          let relativeFilePath := pathRelative rootDir filePath
          Except.ok { id := some nm, module := some (relativeFilePath, H.PACKAGE),
                      dependencies := none, sha1 := none, returned := none }
        else
          Except.ok { id := none, module := none, dependencies := none,
                      sha1 := none, returned := none }
      | none =>
        Except.ok { id := none, module := none, dependencies := none,
                    sha1 := none, returned := none }
  else if ¬(blacklists.contains (extOf filePath)) then
    let id := hasteImplResult.getD none
    let dependencies := if computeDependencies then some extracted else none
    Except.ok { id := id, module := none, dependencies := dependencies,
                sha1 := none, returned := none }
  else
    Except.ok { id := none, module := none, dependencies := none,
                sha1 := none, returned := none }

/-- C7 evaluated at the failing input `/r/package.json` containing a JSON
object with name `pkg`: the worker computes `id = "pkg"` and
`module = ["package.json", H.PACKAGE]` into its local variables, but the
function has no `return` statement, so the call resolves with `undefined`
(`returned = none`) and its result carries no id and no module.  (The
parse-failure clause of the claim does hold: a parse error raises a hard
error naming the path.) -/
theorem worker_packagejson_result_is_undefined :
    worker "/r" "/r/package.json" (Except.ok (ParsedJson.obj (some "pkg")))
        none false []
      = Except.ok { id := some "pkg", module := some ("package.json", H.PACKAGE),
                    dependencies := none, sha1 := none, returned := none } ∧
    worker "/r" "/r/package.json" (Except.error "Unexpected token")
        none false []
      = Except.error "Cannot parse /r/package.json as JSON: Unexpected token" := by
  exact ⟨rfl, rfl⟩

/-- The `clock` field of a watchman query response
(src/src/crawlers/watchman.ts types): a plain string clock or an SCM
object carrying a clock string. -/
inductive ResponseClock where
  | str (clock : String)
  | scmClock (mergebaseWith mergebase clock : String)
deriving DecidableEq

/-- The string clock the crawler persists: `response.clock` when it is a
string, else `response.clock.clock`. -/
def ResponseClock.localClock : ResponseClock → String
  | ResponseClock.str c => c
  | ResponseClock.scmClock _ _ c => c

/-- `mtime_ms` in a response file: `number | { toNumber(): number }`
(a bare number or a long-integer wrapper object). -/
inductive MtimeMs where
  | num (n : Int)
  | longObj (n : Int)
deriving DecidableEq

/-- The crawler's normalization `typeof mtime_ms === "number" ? mtime_ms :
mtime_ms.toNumber()`. -/
def MtimeMs.toNumber : MtimeMs → Int
  | MtimeMs.num n => n
  | MtimeMs.longObj n => n

/-- The `content.sha1hex` field of a response file: a string, or a
non-string value (watchman reports an error object when content was
unreadable) — the crawler tests `typeof sha1hex !== "string"`. -/
inductive ShaField where
  | strVal (s : String)
  | nonString
deriving DecidableEq

/-- One file record of a watchman query response. -/
structure WatchmanFileEntry where
  name : String
  /-- The response's `exists` flag (`exists` is reserved in Lean). -/
  fexists : Bool
  mtime_ms : MtimeMs
  size : Int
  contentSha1hex : Option ShaField
deriving DecidableEq

/-- A watchman query response, restricted to the fields the merge loop
reads. -/
structure WatchmanQueryResponse where
  is_fresh_instance : Bool
  clock : ResponseClock
  files : List WatchmanFileEntry
deriving DecidableEq

/-- The sha1 validation in the merge loop (src/src/crawlers/watchman.ts,
lines 497-501): anything that is not a string of length exactly 40 becomes
`undefined`.  Hex-ness is NOT checked. -/
def validatedSha1 (f : Option ShaField) : Option String :=
  match f with
  | some (ShaField.strVal s) => if s.length = 40 then some s else none
  | _ => none

/-- The `nextData` computation for an existing response file
(src/src/crawlers/watchman.ts, lines 489-522): reuse the previous entry
when the mtime is unchanged; reuse it with only the mtime refreshed when a
validated sha1 is supplied and matches the previous sha1; otherwise a
pristine entry `["", mtime, size, 0, "", sha1hex ?? null]`. -/
def nextFileData (existingFileData : Option FileMetaData)
    (fileData : WatchmanFileEntry) : FileMetaData :=
  let mtime := fileData.mtime_ms.toNumber
  let size := fileData.size
  let sha1hex := validatedSha1 fileData.contentSha1hex
  match existingFileData with
  | some prev =>
    if prev.mtime = mtime then prev
    else if sha1hex.isSome ∧ prev.sha1 = sha1hex then
      { prev with mtime := mtime }
    else
      { id := "", mtime := mtime, size := size, visited := 0,
        dependencies := "", sha1 := sha1hex }
  | none =>
    { id := "", mtime := mtime, size := size, visited := 0,
      dependencies := "", sha1 := sha1hex }

/-- The relative path the merge loop computes for a response file:
`path.relative(rootDir, fsRoot + path.sep + normalizePathSep(name))`. -/
def relPathOfEntry (rootDir fsRoot : String) (fileData : WatchmanFileEntry) : String :=
  pathRelative rootDir (fsRoot ++ pathSep ++ normalizePathSep fileData.name)

/-- The mutable locals of the merge loop (src/src/crawlers/watchman.ts,
lines 424-528): `files`, `removedFiles`, `changedFiles` and the `clocks`
map (mutated through `data.clocks`). -/
structure CrawlState where
  files : FileData
  removedFiles : FileData
  changedFiles : FileData
  clocks : WatchmanClocks
deriving DecidableEq

/-- One iteration of the inner merge loop (src/src/crawlers/watchman.ts,
lines 461-527).  `origFiles` is the map `data.files` held before the loop:
in the fresh case `files` is a brand-new map, so `data.files.get` reads
the untouched previous index; in the non-fresh case `files` IS
`data.files` (same object), so the lookup reads through the current
`files` state.  The `else if (filePath)` guard is always true here
(`filePath` contains at least the separator, hence is non-empty/truthy). -/
def processWatchmanFileEntry (isFresh : Bool) (origFiles : FileData)
    (rootDir fsRoot : String) (st : CrawlState)
    (fileData : WatchmanFileEntry) : CrawlState :=
  let relativeFilePath := relPathOfEntry rootDir fsRoot fileData
  let existingFileData :=
    if isFresh then origFiles.get relativeFilePath
    else st.files.get relativeFilePath
  let st1 :=
    if isFresh ∧ existingFileData.isSome ∧ fileData.fexists then
      { st with removedFiles := st.removedFiles.del relativeFilePath }
    else st
  if ¬fileData.fexists then
    match existingFileData with
    | none => st1
    | some prev =>
      let st2 := { st1 with files := st1.files.del relativeFilePath }
      if ¬isFresh then
        { st2 with removedFiles := st2.removedFiles.set relativeFilePath prev }
      else st2
  else
    let nextData := nextFileData existingFileData fileData
    { st1 with
      files := st1.files.set relativeFilePath nextData
      changedFiles := st1.changedFiles.set relativeFilePath nextData }

/-- One iteration of the outer merge loop over the query results
(src/src/crawlers/watchman.ts, lines 450-528): persist the local clock for
the watch root, then merge every response file. -/
def processWatchmanResponse (isFresh : Bool) (origFiles : FileData)
    (rootDir : String) (st : CrawlState)
    (entry : String × WatchmanQueryResponse) : CrawlState :=
  let fsRoot := normalizePathSep entry.1
  let relativeFsRoot := pathRelative rootDir fsRoot
  let st1 := { st with
    clocks := st.clocks.set relativeFsRoot (ClockSpec.str entry.2.clock.localClock) }
  entry.2.files.foldl (processWatchmanFileEntry isFresh origFiles rootDir fsRoot) st1

/-- The SCM-query test of `queryWatchmanForDirs`
(src/src/crawlers/watchman.ts, lines 406-408): the `since` clock is not a
string and its `scm["mergebase-with"]` is defined. -/
def isSourceControlQuery : Option ClockSpec → Bool
  | some (ClockSpec.scm mb) => mb.isSome
  | _ => false

/-- The `isFresh` accumulation of `queryWatchmanForDirs`
(src/src/crawlers/watchman.ts, lines 337-422): OR of `is_fresh_instance`
over the responses whose `since` clock (looked up in the previous index's
clocks, keyed by the root's path relative to `rootDir`) is not an SCM
query. -/
def computeIsFresh (clocks : WatchmanClocks) (rootDir : String)
    (results : List (String × WatchmanQueryResponse)) : Bool :=
  results.foldl
    (fun acc entry =>
      let since := clocks.get (pathRelative rootDir entry.1)
      if isSourceControlQuery since then acc else acc || entry.2.is_fresh_instance)
    false

/-- The merge-loop state after all responses are folded in
(src/src/crawlers/watchman.ts, lines 424-528): when watchman reported a
fresh instance, `files` restarts empty and `removedFiles` is seeded with a
copy of `data.files`; otherwise `files` continues from `data.files` and
`removedFiles` starts empty. -/
def crawlMergeState (rootDir : String) (data : InternalHasteMap)
    (results : List (String × WatchmanQueryResponse)) : CrawlState :=
  let isFresh := computeIsFresh data.clocks rootDir results
  let st0 : CrawlState :=
    { files := if isFresh then [] else data.files
      removedFiles := if isFresh then data.files else []
      changedFiles := []
      clocks := data.clocks }
  results.foldl (processWatchmanResponse isFresh data.files rootDir) st0

/-- The value `watchmanCrawl` resolves with
(src/src/crawlers/watchman.ts, lines 206-210 and 530-537). -/
structure CrawlResult where
  changedFiles : Option FileData
  removedFiles : FileData
  hasteMap : InternalHasteMap
deriving DecidableEq

/-- Embedding of `watchmanCrawl` (src/src/crawlers/watchman.ts, lines
206-537) from the point where the query responses are in hand: the
watchman client interaction (capability check, `watch-project`, `query`) is
I/O whose outcome is the `results` list (watch root paired with its query
response), in the order `queryWatchmanForDirs` iterates them.  The merge
loops run, `data.files` is replaced by the merged map, and `changedFiles`
is reported as `undefined` exactly when a fresh instance was seen. -/
def watchmanCrawl (rootDir : String) (data : InternalHasteMap)
    (results : List (String × WatchmanQueryResponse)) : CrawlResult :=
  let isFresh := computeIsFresh data.clocks rootDir results
  let st := crawlMergeState rootDir data results
  { changedFiles := if isFresh then none else some st.changedFiles
    removedFiles := st.removedFiles
    hasteMap := { data with files := st.files, clocks := st.clocks } }

/-- Whether one response reports the path `p` as (still) existing. -/
def entryReportsExisting (rootDir p : String)
    (entry : String × WatchmanQueryResponse) : Bool :=
  entry.2.files.any (fun f =>
    f.fexists && (relPathOfEntry rootDir (normalizePathSep entry.1) f == p))

/-- Whether any response of the crawl reports the path `p` as existing. -/
def reportsExisting (rootDir : String)
    (results : List (String × WatchmanQueryResponse)) (p : String) : Bool :=
  results.any (entryReportsExisting rootDir p)

/-- In a fresh crawl, one merge-loop iteration removes `p` from
`removedFiles` exactly when this response file is `p`, exists, and `p` was
previously tracked; otherwise `removedFiles` is untouched at `p`. -/
theorem processEntry_removed_fresh (origFiles : FileData) (rootDir fsRoot : String)
    (st : CrawlState) (f : WatchmanFileEntry) (p : String) :
    (processWatchmanFileEntry true origFiles rootDir fsRoot st f).removedFiles.get p
      = if f.fexists = true ∧ relPathOfEntry rootDir fsRoot f = p
            ∧ (origFiles.get p).isSome = true
        then none
        else st.removedFiles.get p := by
  by_cases hp : relPathOfEntry rootDir fsRoot f = p
  · subst hp
    cases hex : origFiles.get (relPathOfEntry rootDir fsRoot f) with
    | none =>
      cases hfe : f.fexists <;>
        simp [processWatchmanFileEntry, hex, hfe, SMap.get_del]
    | some prev =>
      cases hfe : f.fexists <;>
        simp [processWatchmanFileEntry, hex, hfe, SMap.get_del]
  · have hp' : ¬(p = relPathOfEntry rootDir fsRoot f) := fun hc => hp hc.symm
    cases hex : origFiles.get (relPathOfEntry rootDir fsRoot f) with
    | none =>
      cases hfe : f.fexists <;>
        simp [processWatchmanFileEntry, hex, hfe, hp, hp', SMap.get_del]
    | some prev =>
      cases hfe : f.fexists <;>
        simp [processWatchmanFileEntry, hex, hfe, hp, hp', SMap.get_del]

/-- In a fresh crawl, folding a response's whole file list removes from
`removedFiles` exactly the previously tracked paths the list reports as
existing. -/
theorem foldEntries_removed_fresh (origFiles : FileData) (rootDir fsRoot : String)
    (fs : List WatchmanFileEntry) (st : CrawlState) (p : String) :
    ((fs.foldl (processWatchmanFileEntry true origFiles rootDir fsRoot) st).removedFiles.get p)
      = if (fs.any (fun f => f.fexists && (relPathOfEntry rootDir fsRoot f == p))) = true
            ∧ (origFiles.get p).isSome = true
        then none
        else st.removedFiles.get p := by
  induction fs generalizing st with
  | nil => simp
  | cons f fs ih =>
    rw [List.foldl_cons, ih, processEntry_removed_fresh]
    by_cases hq : (origFiles.get p).isSome = true
    · by_cases hf1 : f.fexists = true
      · by_cases hf2 : relPathOfEntry rootDir fsRoot f = p
        · simp [hf1, hf2, hq]
        · simp [hf1, hf2, hq]
      · simp [hf1, hq]
    · simp [hq]

/-- In a fresh crawl, merging one whole response removes from
`removedFiles` exactly the previously tracked paths it reports as
existing (the clock update does not touch `removedFiles`). -/
theorem response_removed_fresh (origFiles : FileData) (rootDir : String)
    (entry : String × WatchmanQueryResponse) (st : CrawlState) (p : String) :
    ((processWatchmanResponse true origFiles rootDir st entry).removedFiles.get p)
      = if entryReportsExisting rootDir p entry = true ∧ (origFiles.get p).isSome = true
        then none
        else st.removedFiles.get p := by
  unfold processWatchmanResponse entryReportsExisting
  rw [foldEntries_removed_fresh]

/-- In a fresh crawl, folding every response removes from `removedFiles`
exactly the previously tracked paths some response reports as existing. -/
theorem foldResponses_removed_fresh (origFiles : FileData) (rootDir : String)
    (results : List (String × WatchmanQueryResponse)) (st : CrawlState) (p : String) :
    ((results.foldl (processWatchmanResponse true origFiles rootDir) st).removedFiles.get p)
      = if reportsExisting rootDir results p = true ∧ (origFiles.get p).isSome = true
        then none
        else st.removedFiles.get p := by
  induction results generalizing st with
  | nil => simp [reportsExisting]
  | cons e es ih =>
    rw [List.foldl_cons, ih, response_removed_fresh]
    by_cases hq : (origFiles.get p).isSome = true
    · by_cases hf : entryReportsExisting rootDir p e = true
      · simp [reportsExisting, hf, hq]
      · have hf' : entryReportsExisting rootDir p e = false := by
          simpa using hf
        simp only [reportsExisting, List.any_cons, hf', Bool.false_or]
        simp
    · simp [hq]

/-- C4: in a fresh crawl (some non-SCM response has `is_fresh_instance`),
the returned `removedFiles` is exactly the previous `files` map restricted
to the paths no response reports as existing: the crawler seeds `removed`
with a copy of the previous files, starts `files` empty, and deletes from
`removed` every previously tracked path reported as still existing. -/
theorem watchmanCrawl_fresh_removedFiles (rootDir : String) (data : InternalHasteMap)
    (results : List (String × WatchmanQueryResponse))
    (hfresh : computeIsFresh data.clocks rootDir results = true) (p : String) :
    (watchmanCrawl rootDir data results).removedFiles.get p
      = if reportsExisting rootDir results p = true then none else data.files.get p := by
  unfold watchmanCrawl crawlMergeState
  rw [hfresh]
  simp only [if_true, ite_true]
  rw [foldResponses_removed_fresh]
  by_cases hr : reportsExisting rootDir results p = true
  · by_cases hq : (data.files.get p).isSome = true
    · simp [hr, hq]
    · have hnone : data.files.get p = none := by
        cases h : data.files.get p with
        | none => rfl
        | some v => rw [h] at hq; simp at hq
      simp [hr, hq, hnone]
  · simp [hr]


/-- C5 (amended): metadata selection and recording for an existing
response file.  Same mtime: the previous entry is reused unchanged.
Changed mtime with a supplied 40-character sha1 string equal to the
previous sha1: the previous entry is reused with only the mtime refreshed.
Otherwise: a pristine entry (empty hasteId, new mtime and size, visited
`0`, empty dependencies, the validated sha1) is recorded.  The validation
keeps exactly the string values of length 40 — hex-ness is not checked. -/
theorem crawl_nextData_cases (isF : Bool) (origFiles : FileData)
    (rootDir fsRoot : String) (st : CrawlState) (f : WatchmanFileEntry)
    (hfe : f.fexists = true) :
    ((processWatchmanFileEntry isF origFiles rootDir fsRoot st f).files.get
        (relPathOfEntry rootDir fsRoot f)
      = some (nextFileData
          (if isF then origFiles.get (relPathOfEntry rootDir fsRoot f)
           else st.files.get (relPathOfEntry rootDir fsRoot f)) f)) ∧
    (∀ pv : FileMetaData, pv.mtime = f.mtime_ms.toNumber →
      nextFileData (some pv) f = pv) ∧
    (∀ (pv : FileMetaData) (s : String), pv.mtime ≠ f.mtime_ms.toNumber →
      validatedSha1 f.contentSha1hex = some s → pv.sha1 = some s →
      nextFileData (some pv) f = { pv with mtime := f.mtime_ms.toNumber }) ∧
    (∀ pv : FileMetaData, pv.mtime ≠ f.mtime_ms.toNumber →
      (∀ s : String, validatedSha1 f.contentSha1hex = some s → pv.sha1 ≠ some s) →
      nextFileData (some pv) f
        = { id := "", mtime := f.mtime_ms.toNumber, size := f.size, visited := 0,
            dependencies := "", sha1 := validatedSha1 f.contentSha1hex }) ∧
    (nextFileData none f
      = { id := "", mtime := f.mtime_ms.toNumber, size := f.size, visited := 0,
          dependencies := "", sha1 := validatedSha1 f.contentSha1hex }) ∧
    (∀ s : String, validatedSha1 f.contentSha1hex = some s ↔
      (f.contentSha1hex = some (ShaField.strVal s) ∧ s.length = 40)) := by
  refine ⟨?_, ?_, ?_, ?_, ?_, ?_⟩
  · simp [processWatchmanFileEntry, hfe, apply_ite CrawlState.files,
      apply_ite CrawlState.changedFiles, ite_self, SMap.get_set_self]
  · intro pv h
    simp [nextFileData, h]
  · intro pv s hm hv hs
    simp [nextFileData, hm, hv, hs]
  · intro pv hm h4
    cases hv : validatedSha1 f.contentSha1hex with
    | none => simp [nextFileData, hm, hv]
    | some s => simp [nextFileData, hm, hv, h4 s hv]
  · simp [nextFileData]
  · intro s
    constructor
    · intro hv
      cases hsf : f.contentSha1hex with
      | none => rw [hsf] at hv; simp [validatedSha1] at hv
      | some sf =>
        cases sf with
        | nonString => rw [hsf] at hv; simp [validatedSha1] at hv
        | strVal sp =>
          rw [hsf] at hv
          by_cases hl : sp.length = 40
          · simp only [validatedSha1, if_pos hl, Option.some.injEq] at hv
            subst hv
            exact ⟨rfl, hl⟩
          · simp [validatedSha1, hl] at hv
    · rintro ⟨h1, h2⟩
      rw [h1]
      simp [validatedSha1, h2]

/-- The forty-character non-hex string used by the C5 counterexample. -/
def zStr : String := "zzzzzzzzzzzzzzzzzzzzzzzzzzzzzzzzzzzzzzzz"

/-- Modelled from the spec (section 4.3): a valid 40-hex string is forty
characters, each a hexadecimal digit.  Used only to state what the claim
calls a "valid 40-hex" sha1. -/
def isHex40 (s : String) : Bool :=
  (s.length == 40) && s.data.all (fun c =>
    c.isDigit || ('a' ≤ c && c ≤ 'f') || ('A' ≤ c && c ≤ 'F'))

/-- Previous entry for the C5 counterexample: its sha1 is the non-hex
`zStr`. -/
def prevZ : FileMetaData :=
  { id := "Foo", mtime := 1, size := 10, visited := 1, dependencies := "dep",
    sha1 := some zStr }

/-- Response file for the C5 counterexample: bumped mtime, sha1 field again
`zStr`. -/
def entryZ : WatchmanFileEntry :=
  { name := "a.js", fexists := true, mtime_ms := MtimeMs.num 2, size := 10,
    contentSha1hex := some (ShaField.strVal zStr) }

/-- C5 counterexample: `zStr` is not a valid 40-hex string, so the claim
mandates the pristine entry with sha1 absent; but the crawler validates
only `length === 40`, takes the sha1-equality branch, and reuses the
previous metadata with just the mtime refreshed (hasteId, visited,
dependencies and the sha1 all survive). -/
theorem nextFileData_nonhex_counterexample :
    isHex40 zStr = false ∧
    nextFileData (some prevZ) entryZ = { prevZ with mtime := 2 } ∧
    nextFileData (some prevZ) entryZ
      ≠ { id := "", mtime := 2, size := 10, visited := 0, dependencies := "",
          sha1 := none } := by
  refine ⟨by rfl, by rfl, by decide⟩

/-- Crawl state for the C5 witness. -/
def cstW : CrawlState :=
  { files := [], removedFiles := [], changedFiles := [], clocks := [] }

/-- Response file for the C5 witness: same mtime as `prevZ`. -/
def entrySameW : WatchmanFileEntry :=
  { name := "a.js", fexists := true, mtime_ms := MtimeMs.num 1, size := 10,
    contentSha1hex := none }

/-- Previous entry for the pristine branch of the C5 witness: no sha1. -/
def prevY : FileMetaData :=
  { id := "Foo", mtime := 1, size := 10, visited := 1, dependencies := "dep",
    sha1 := none }

theorem crawl_nextData_cases_witness :
    nextFileData (some prevZ) entrySameW = prevZ ∧
    nextFileData (some prevZ) entryZ = { prevZ with mtime := 2 } ∧
    nextFileData (some prevY) entryZ
      = { id := "", mtime := entryZ.mtime_ms.toNumber, size := entryZ.size,
          visited := 0, dependencies := "",
          sha1 := validatedSha1 entryZ.contentSha1hex } ∧
    nextFileData none entryZ
      = { id := "", mtime := entryZ.mtime_ms.toNumber, size := entryZ.size,
          visited := 0, dependencies := "",
          sha1 := validatedSha1 entryZ.contentSha1hex } :=
  ⟨(crawl_nextData_cases true [("a.js", prevZ)] "/r" "/r" cstW entrySameW rfl).2.1
      prevZ rfl,
   (crawl_nextData_cases true [("a.js", prevZ)] "/r" "/r" cstW entryZ rfl).2.2.1
      prevZ zStr (by decide) rfl rfl,
   (crawl_nextData_cases true [("a.js", prevY)] "/r" "/r" cstW entryZ rfl).2.2.2.1
      prevY (by decide)
      (fun s _ hs => by
        rw [show prevY.sha1 = none from rfl] at hs
        exact Option.noConfusion hs),
   (crawl_nextData_cases true [] "/r" "/r" cstW entryZ rfl).2.2.2.2.1⟩

/-- C9: the crawl result presents `changedFiles` as absent (`undefined`)
exactly when a fresh instance was reported by some non-SCM response — even
though the merge loop accumulates a changed entry for every existing
response file regardless of freshness (third conjunct) — and otherwise the
accumulated changed-file map is returned. -/
theorem watchmanCrawl_changedFiles_presentation (rootDir : String)
    (data : InternalHasteMap) (results : List (String × WatchmanQueryResponse)) :
    (computeIsFresh data.clocks rootDir results = true →
      (watchmanCrawl rootDir data results).changedFiles = none) ∧
    (computeIsFresh data.clocks rootDir results = false →
      (watchmanCrawl rootDir data results).changedFiles
        = some (crawlMergeState rootDir data results).changedFiles) ∧
    (∀ (isF : Bool) (origFiles : FileData) (fsRoot : String) (st : CrawlState)
        (f : WatchmanFileEntry), f.fexists = true →
      (processWatchmanFileEntry isF origFiles rootDir fsRoot st f).changedFiles.get
          (relPathOfEntry rootDir fsRoot f)
        = some (nextFileData
            (if isF then origFiles.get (relPathOfEntry rootDir fsRoot f)
             else st.files.get (relPathOfEntry rootDir fsRoot f)) f)) := by
  refine ⟨?_, ?_, ?_⟩
  · intro h
    unfold watchmanCrawl
    rw [h]
    simp
  · intro h
    unfold watchmanCrawl
    rw [h]
    simp
  · intro isF origFiles fsRoot st f hfe
    simp [processWatchmanFileEntry, hfe, apply_ite CrawlState.files,
      apply_ite CrawlState.changedFiles, ite_self, SMap.get_set_self]

/-- Previous index for the crawl witnesses: two tracked files. -/
def crawlDataW : InternalHasteMap :=
  { createEmptyMap with files := [("a.js", metaW), ("b.js", metaW)] }

/-- A fresh-instance crawl response listing only `a.js` as existing. -/
def freshResultsW : List (String × WatchmanQueryResponse) :=
  [("/r", { is_fresh_instance := true, clock := ResponseClock.str "c:1",
            files := [{ name := "a.js", fexists := true,
                        mtime_ms := MtimeMs.num 2, size := 1,
                        contentSha1hex := none }] })]

/-- The same response with the fresh-instance flag off. -/
def nonFreshResultsW : List (String × WatchmanQueryResponse) :=
  [("/r", { is_fresh_instance := false, clock := ResponseClock.str "c:1",
            files := [{ name := "a.js", fexists := true,
                        mtime_ms := MtimeMs.num 2, size := 1,
                        contentSha1hex := none }] })]

theorem watchmanCrawl_fresh_removedFiles_witness :
    (watchmanCrawl "/r" crawlDataW freshResultsW).removedFiles.get "b.js"
      = if reportsExisting "/r" freshResultsW "b.js" = true then none
        else crawlDataW.files.get "b.js" :=
  watchmanCrawl_fresh_removedFiles "/r" crawlDataW freshResultsW (by rfl) "b.js"

theorem watchmanCrawl_changedFiles_presentation_witness :
    (watchmanCrawl "/r" crawlDataW freshResultsW).changedFiles = none ∧
    (watchmanCrawl "/r" crawlDataW nonFreshResultsW).changedFiles
      = some (crawlMergeState "/r" crawlDataW nonFreshResultsW).changedFiles ∧
    (processWatchmanFileEntry true crawlDataW.files "/r" "/r" cstW
        entrySameW).changedFiles.get (relPathOfEntry "/r" "/r" entrySameW)
      = some (nextFileData
          (if (true : Bool) then
            crawlDataW.files.get (relPathOfEntry "/r" "/r" entrySameW)
           else cstW.files.get (relPathOfEntry "/r" "/r" entrySameW)) entrySameW) :=
  ⟨(watchmanCrawl_changedFiles_presentation "/r" crawlDataW freshResultsW).1 (by rfl),
   (watchmanCrawl_changedFiles_presentation "/r" crawlDataW nonFreshResultsW).2.1 (by rfl),
   (watchmanCrawl_changedFiles_presentation "/r" crawlDataW
      nonFreshResultsW).2.2 true crawlDataW.files "/r" cstW entrySameW rfl⟩
